import Mathlib

/-!
Verification of the whoen request-blocking middleware (Go).

Shallow embedding of the core: the Block Store (storage/json.go, JSONStorage),
the Enforcement Adapter (blocker/service.go, Service) and the Policy Engine
(middleware/middleware.go, Middleware.HandleRequest and RestoreBlocks).

Instants and durations (Go time.Time / time.Duration) are modelled as integers;
the Go zero time value is modelled as 0.  External OS commands are modelled by
an environment flag osOk saying whether the platform command succeeds, and the
commands issued are collected in a list, so that frame claims (which call
issues which command) are statable.
-/

namespace Whoen

/-- Instants and durations as integers; 0 is the Go zero time value. -/
abbrev Time := Int

/-- storage.BlockStatus: the durable record kept per address. -/
structure BlockStatus where
  ip : String
  blockedAt : Time
  blockedUntil : Time
  requestCount : Int
  timeoutCount : Int
  isPermanent : Bool
  lastRequestPath : String
deriving Repr, DecidableEq

/-- Association list standing for a Go map keyed by IP string. -/
def alookup {α : Type} : List (String × α) → String → Option α
  | [], _ => none
  | (k, v) :: rest, ip => if k = ip then some v else alookup rest ip

/-- Go map assignment: replace the value under the key, or append the binding. -/
def aset {α : Type} : List (String × α) → String → α → List (String × α)
  | [], ip, v => [(ip, v)]
  | (k, w) :: rest, ip, v => if k = ip then (k, v) :: rest else (k, w) :: aset rest ip v

/-- Go map delete. -/
def aerase {α : Type} : List (String × α) → String → List (String × α)
  | [], _ => []
  | (k, v) :: rest, ip => if k = ip then aerase rest ip else (k, v) :: aerase rest ip

/-- The Block Store state: JSONStorage.blockedIPs. -/
abbrev StorageState := List (String × BlockStatus)

/-- Result triple of JSONStorage.IsIPBlocked: the bool, the returned status
pointer (none models Go nil) and the possibly mutated map. -/
structure IsIPBlockedResult where
  blocked : Bool
  status : Option BlockStatus
  state : StorageState
deriving Repr, DecidableEq

/-- JSONStorage.IsIPBlocked (storage/json.go:49-82): an existing record that is
non-permanent with blockedUntil before now is deleted during the read and
reported not blocked; otherwise the record is reported blocked. -/
def JSONStorage.IsIPBlocked (s : StorageState) (now : Time) (ip : String) :
    IsIPBlockedResult :=
  match alookup s ip with
  | none => ⟨false, none, s⟩
  | some st =>
    if st.isPermanent = false ∧ st.blockedUntil < now then
      ⟨false, some st, aerase s ip⟩
    else ⟨true, some st, s⟩

/-- JSONStorage.IncrementRequestCount (storage/json.go:133-152): bump the count
of an existing record, or create a fresh record with count 1 and Go zero values
for the remaining fields (blockedUntil = 0, timeoutCount = 0, not permanent). -/
def JSONStorage.IncrementRequestCount (s : StorageState) (now : Time)
    (ip path : String) : StorageState :=
  match alookup s ip with
  | some st => aset s ip
      { st with requestCount := st.requestCount + 1, lastRequestPath := path }
  | none => aset s ip ⟨ip, now, 0, 1, 0, false, path⟩

/-- JSONStorage.BlockIP (storage/json.go:84-108): set the block fields of an
existing record, or create a record with requestCount 1 and timeoutCount 0. -/
def JSONStorage.BlockIP (s : StorageState) (now : Time) (ip : String)
    (blockUntil : Time) (isPermanent : Bool) (path : String) : StorageState :=
  match alookup s ip with
  | some st => aset s ip
      { st with blockedUntil := blockUntil, isPermanent := isPermanent,
                lastRequestPath := path }
  | none => aset s ip ⟨ip, now, blockUntil, 1, 0, isPermanent, path⟩

/-- JSONStorage.IncrementTimeoutCount (storage/json.go:155-166): bump the
timeout count of an existing record; no-op when the record is absent. -/
def JSONStorage.IncrementTimeoutCount (s : StorageState) (ip : String) :
    StorageState :=
  match alookup s ip with
  | some st => aset s ip { st with timeoutCount := st.timeoutCount + 1 }
  | none => s

/-- JSONStorage.UnblockIP (storage/json.go:111-117). -/
def JSONStorage.UnblockIP (s : StorageState) (ip : String) : StorageState :=
  aerase s ip

/-- JSONStorage.CleanupExpired (storage/json.go:219-231): remove every record
with isPermanent false and blockedUntil before now. -/
def JSONStorage.CleanupExpired (s : StorageState) (now : Time) : StorageState :=
  s.filter (fun p => !(!p.2.isPermanent && decide (now > p.2.blockedUntil)))

/-- JSONStorage.GetBlockedIPs (storage/json.go:120-130). -/
def JSONStorage.GetBlockedIPs (s : StorageState) : List BlockStatus :=
  s.map Prod.snd

/-- blocker.BlockType (blocker/blocker.go). -/
inductive BlockType
  | Timeout
  | Ban
deriving Repr, DecidableEq

/-- An OS-level packet-filter command issued by the Enforcement Adapter. -/
inductive OSCmd
  | block (ip : String)
  | unblock (ip : String)
deriving Repr, DecidableEq

/-- The Enforcement Adapter's in-memory index (Service.blockedIPs):
IP → expiration instant, 0 (the Go zero time) marking a permanent block. -/
abbrev BlockerState := List (String × Time)

/-- The system-type dispatch in Service (blocker/service.go:74-82): exactly
linux, darwin and windows have a platform implementation. -/
def supportedSystem (sys : String) : Bool :=
  sys == "linux" || sys == "darwin" || sys == "windows"

/-- Go strings.ToLower, modelled as mapping each character to lowercase. -/
def lowerString (s : String) : String :=
  String.mk (s.data.map Char.toLower)

/-- The normalization done by NewServiceWithSystemType (blocker/service.go:27-38):
lowercase the system type and map "mac" to "darwin". -/
def normalizeSystemType (sys : String) : String :=
  let t := lowerString sys
  if t = "mac" then "darwin" else t

/-- Outcome of an adapter Block call: the new index, the OS commands issued
(attempted) and whether an error was returned. -/
structure BlockOutcome where
  state : BlockerState
  cmds : List OSCmd
  err : Bool
deriving Repr, DecidableEq

/-- The OS-dispatch part of Service.Block (blocker/service.go:72-96): issue the
platform block command (succeeding when osOk), then on success record the entry
(0 for Ban, now + duration for Timeout); on failure leave the index unchanged.
An unsupported system type errors without issuing any command. -/
def Service.blockAtOS (bl : BlockerState) (sys : String) (osOk : Bool)
    (now : Time) (ip : String) (bt : BlockType) (dur : Time) : BlockOutcome :=
  if supportedSystem sys then
    if osOk then
      ⟨aset bl ip (if bt = BlockType.Ban then 0 else now + dur),
       [OSCmd.block ip], false⟩
    else ⟨bl, [OSCmd.block ip], true⟩
  else ⟨bl, [], true⟩

/-- Service.Block (blocker/service.go:54-97): when the IP already has an entry
that is permanent, or the call is a Timeout whose expiry now + duration is
strictly before the existing expiration, return at once with no command and no
index change; otherwise go to the OS. -/
def Service.Block (bl : BlockerState) (sys : String) (osOk : Bool) (now : Time)
    (ip : String) (bt : BlockType) (dur : Time) : BlockOutcome :=
  match alookup bl ip with
  | some exp =>
    if exp = 0 ∨ (bt = BlockType.Timeout ∧ now + dur < exp) then ⟨bl, [], false⟩
    else Service.blockAtOS bl sys osOk now ip bt dur
  | none => Service.blockAtOS bl sys osOk now ip bt dur

/-- Service.IsBlocked (blocker/service.go:131-149): report a permanent or
not-yet-expired entry as blocked; delete an expired entry during the read.
No OS command is ever issued (hence the always-empty command list). -/
def Service.IsBlocked (bl : BlockerState) (now : Time) (ip : String) :
    Bool × BlockerState × List OSCmd :=
  match alookup bl ip with
  | none => (false, bl, [])
  | some exp =>
    if exp = 0 ∨ now < exp then (true, bl, [])
    else (false, aerase bl ip, [])

/-- Service.Unblock (blocker/service.go:100-129): no-op on an absent entry;
otherwise issue the OS unblock and on success delete the entry. -/
def Service.Unblock (bl : BlockerState) (sys : String) (osOk : Bool)
    (ip : String) : BlockerState × List OSCmd × Bool :=
  match alookup bl ip with
  | none => (bl, [], false)
  | some _ =>
    if supportedSystem sys then
      if osOk then (aerase bl ip, [OSCmd.unblock ip], false)
      else (bl, [OSCmd.unblock ip], true)
    else (bl, [], true)

/-- The loop of Service.CleanupExpired (blocker/service.go:151-181): for every
entry that is non-permanent and expired, issue the OS unblock and then delete
the entry; a failed command aborts with the remaining entries untouched; an
unsupported system type skips the entry. -/
def Service.cleanupGo (sys : String) (osOk : Bool) (now : Time) :
    BlockerState → BlockerState × List OSCmd × Bool
  | [] => ([], [], false)
  | (ip, exp) :: rest =>
    if exp ≠ 0 ∧ now > exp then
      if supportedSystem sys then
        if osOk then
          let r := Service.cleanupGo sys osOk now rest
          (r.1, OSCmd.unblock ip :: r.2.1, r.2.2)
        else ((ip, exp) :: rest, [OSCmd.unblock ip], true)
      else
        let r := Service.cleanupGo sys osOk now rest
        ((ip, exp) :: r.1, r.2.1, r.2.2)
    else
      let r := Service.cleanupGo sys osOk now rest
      ((ip, exp) :: r.1, r.2.1, r.2.2)

/-- Service.CleanupExpired (blocker/service.go:151-181). -/
def Service.CleanupExpired (bl : BlockerState) (sys : String) (osOk : Bool)
    (now : Time) : BlockerState × List OSCmd × Bool :=
  Service.cleanupGo sys osOk now bl

/-- The middleware options consumed by the decision path
(middleware/middleware.go Options). -/
structure Options where
  gracePeriod : Int
  timeoutEnabled : Bool
  timeoutDuration : Time
  timeoutIncrease : String
deriving Repr, DecidableEq

/-- Signed 64-bit wrap-around, the behavior of Go's int and time.Duration
(int64) arithmetic: 9223372036854775808 is 2^63 and 18446744073709551616 is
2^64, so the result is the representative of x in [-2^63, 2^63). -/
def wrap64 (x : Int) : Int :=
  (x + 9223372036854775808) % 18446744073709551616 - 9223372036854775808

/-- The multiplier loop in calculateTimeoutDuration (middleware.go:232-235):
starting from 1, double with Go's wrapping 64-bit int multiplication once per
iteration. -/
def Middleware.geoLoop : Nat → Int
  | 0 => 1
  | n + 1 => wrap64 (Middleware.geoLoop n * 2)

/-- The geometric multiplier after timeoutCount loop iterations (a negative
count runs the loop zero times). -/
def Middleware.geometricMultiplier (timeoutCount : Int) : Int :=
  Middleware.geoLoop timeoutCount.toNat

/-- Middleware.calculateTimeoutDuration (middleware.go:222-241), with Go's
wrapping int64 (int / time.Duration) multiplication and addition. -/
def Middleware.calculateTimeoutDuration (opts : Options) (timeoutCount : Int) :
    Time :=
  let baseDuration := opts.timeoutDuration
  if timeoutCount = 0 then baseDuration
  else if opts.timeoutIncrease = "geometric" then
    wrap64 (baseDuration * Middleware.geometricMultiplier timeoutCount)
  else wrap64 (baseDuration * wrap64 (timeoutCount + 1))

/-- Observable outcome of Middleware.HandleRequest: the decision (true means
the request is blocked), whether an error was returned, the two stores after
the call, and the OS commands issued. -/
structure HandleResult where
  blocked : Bool
  err : Bool
  storage : StorageState
  blocker : BlockerState
  cmds : List OSCmd
deriving Repr, DecidableEq

/-- Middleware.HandleRequest (middleware.go:112-220), for a request with the
given client IP and path.  The matcher and whitelist collaborators are the
function parameters isWhitelisted and isMalicious.  The value none models the
nil-pointer dereference of status on the final logging line (reachable in the
code only if the storage read could return a nil status after the increment). -/
def Middleware.HandleRequest (opts : Options)
    (isWhitelisted isMalicious : String → Bool) (sys : String) (osOk : Bool)
    (st : StorageState) (bl : BlockerState) (now : Time) (ip path : String) :
    Option HandleResult :=
  if isWhitelisted ip then some ⟨false, false, st, bl, []⟩
  else
    let ib := Service.IsBlocked bl now ip
    if ib.1 then some ⟨true, false, st, ib.2.1, []⟩
    else if !(isMalicious path) then some ⟨false, false, st, ib.2.1, []⟩
    else
      let st1 := JSONStorage.IncrementRequestCount st now ip path
      let r := JSONStorage.IsIPBlocked st1 now ip
      if r.blocked then
        match r.status with
        | none => none
        | some s0 =>
          let b := if s0.isPermanent
            then Service.Block ib.2.1 sys osOk now ip BlockType.Ban 0
            else Service.Block ib.2.1 sys osOk now ip BlockType.Timeout
                   (s0.blockedUntil - now)
          some ⟨true, false, r.state, b.state, b.cmds⟩
      else
        match r.status with
        | none => none
        | some s0 =>
          if s0.requestCount > opts.gracePeriod then
            if opts.timeoutEnabled then
              let dur := Middleware.calculateTimeoutDuration opts s0.timeoutCount
              let b := Service.Block ib.2.1 sys osOk now ip BlockType.Timeout dur
              if b.err then some ⟨false, true, r.state, b.state, b.cmds⟩
              else
                let st2 := JSONStorage.BlockIP r.state now ip (now + dur) false path
                let st3 := JSONStorage.IncrementTimeoutCount st2 ip
                some ⟨true, false, st3, b.state, b.cmds⟩
            else
              let b := Service.Block ib.2.1 sys osOk now ip BlockType.Ban 0
              if b.err then some ⟨false, true, r.state, b.state, b.cmds⟩
              else
                some ⟨true, false,
                      JSONStorage.BlockIP r.state now ip 0 true path,
                      b.state, b.cmds⟩
          else some ⟨false, false, r.state, ib.2.1, []⟩

/-- Outcome of RestoreBlocks on success: the two counters it reports, the
resulting adapter index and the OS commands issued. -/
structure RestoreOutcome where
  restored : Nat
  skipped : Nat
  blocker : BlockerState
  cmds : List OSCmd
deriving Repr, DecidableEq

/-- The loop of RestoreBlocks (middleware.go:361-392): skip (and count) records
that are non-permanent and expired, or whose remaining duration is not
positive; reinstall every other record through Service.Block (Ban when
permanent, Timeout for blockedUntil - now otherwise); none models the early
error return when a Block call fails. -/
def Middleware.restoreLoop (sys : String) (osOk : Bool) (now : Time) :
    List BlockStatus → BlockerState → Option RestoreOutcome
  | [], bl => some ⟨0, 0, bl, []⟩
  | s0 :: rest, bl =>
    if s0.isPermanent = false ∧ s0.blockedUntil < now then
      match Middleware.restoreLoop sys osOk now rest bl with
      | none => none
      | some r => some ⟨r.restored, r.skipped + 1, r.blocker, r.cmds⟩
    else if s0.isPermanent then
      let b := Service.Block bl sys osOk now s0.ip BlockType.Ban 0
      if b.err then none
      else
        match Middleware.restoreLoop sys osOk now rest b.state with
        | none => none
        | some r => some ⟨r.restored + 1, r.skipped, r.blocker, b.cmds ++ r.cmds⟩
    else
      let remainingDuration := s0.blockedUntil - now
      if remainingDuration ≤ 0 then
        match Middleware.restoreLoop sys osOk now rest bl with
        | none => none
        | some r => some ⟨r.restored, r.skipped + 1, r.blocker, r.cmds⟩
      else
        let b := Service.Block bl sys osOk now s0.ip BlockType.Timeout
                   remainingDuration
        if b.err then none
        else
          match Middleware.restoreLoop sys osOk now rest b.state with
          | none => none
          | some r => some ⟨r.restored + 1, r.skipped, r.blocker, b.cmds ++ r.cmds⟩

/-- RestoreBlocks (middleware.go:344-396): read every record and reinstall the
non-expired ones on a freshly created adapter (empty index). -/
def Middleware.RestoreBlocks (sys : String) (osOk : Bool) (now : Time)
    (records : List BlockStatus) : Option RestoreOutcome :=
  Middleware.restoreLoop (normalizeSystemType sys) osOk now records []

/-- The Block Store mutators named by the data-model invariant section, as a
step alphabet over the storage state. -/
inductive StoreOp
  | incReq (now : Time) (ip path : String)
  | blockIP (now : Time) (ip : String) (blockUntil : Time) (perm : Bool)
      (path : String)
  | incTimeout (ip : String)
  | cleanup (now : Time)
  | unblockIP (ip : String)
deriving Repr, DecidableEq

/-- Apply one Block Store operation. -/
def applyOp (s : StorageState) : StoreOp → StorageState
  | .incReq now ip path => JSONStorage.IncrementRequestCount s now ip path
  | .blockIP now ip u perm path => JSONStorage.BlockIP s now ip u perm path
  | .incTimeout ip => JSONStorage.IncrementTimeoutCount s ip
  | .cleanup now => JSONStorage.CleanupExpired s now
  | .unblockIP ip => JSONStorage.UnblockIP s ip

/-- Apply a sequence of Block Store operations. -/
def applyOps (s : StorageState) (ops : List StoreOp) : StorageState :=
  ops.foldl applyOp s

/-- Every record in the store has requestCount at least 1. -/
def allCountPos (s : StorageState) : Bool :=
  s.all (fun p => decide (1 ≤ p.2.requestCount))

/-- The given IP stays present in the store at every state along the
operation sequence. -/
def presentAll (s : StorageState) (ip : String) : List StoreOp → Bool
  | [] => true
  | o :: os => (alookup (applyOp s o) ip).isSome && presentAll (applyOp s o) ip os

/-- A concrete persisted-record list: an expired timed block, a timed block
with remaining duration, and a permanent block. -/
def c7recs : List BlockStatus :=
  [⟨"10.0.0.1", 0, 50, 3, 1, false, "/a"⟩,
   ⟨"10.0.0.2", 0, 200, 3, 1, false, "/b"⟩,
   ⟨"10.0.0.3", 0, 0, 5, 0, true, "/c"⟩]

/-! ### Association-list lemmas -/

theorem alookup_aset_self {α : Type} (l : List (String × α)) (ip : String)
    (v : α) : alookup (aset l ip v) ip = some v := by
  induction l with
  | nil => simp [aset, alookup]
  | cons p rest ih =>
    obtain ⟨k, w⟩ := p
    by_cases h : k = ip <;> simp [aset, alookup, h, ih]

theorem alookup_aset_ne {α : Type} (l : List (String × α)) (ip k : String)
    (v : α) (h : k ≠ ip) : alookup (aset l ip v) k = alookup l k := by
  induction l with
  | nil =>
    have h2 : ¬ ip = k := fun hh => h hh.symm
    simp [aset, alookup, h2]
  | cons p rest ih =>
    obtain ⟨k0, w⟩ := p
    by_cases h0 : k0 = ip
    · subst h0
      have h2 : ¬ k0 = k := fun hh => h hh.symm
      simp [aset, alookup, h2]
    · by_cases h1 : k0 = k <;> simp [aset, alookup, h0, h1, h, ih]

theorem alookup_aerase_self {α : Type} (l : List (String × α)) (ip : String) :
    alookup (aerase l ip) ip = none := by
  induction l with
  | nil => simp [aerase, alookup]
  | cons p rest ih =>
    obtain ⟨k, w⟩ := p
    by_cases h : k = ip <;> simp [aerase, alookup, h, ih]

theorem alookup_aerase_ne {α : Type} (l : List (String × α)) (ip k : String)
    (h : k ≠ ip) : alookup (aerase l ip) k = alookup l k := by
  induction l with
  | nil => simp [aerase, alookup]
  | cons p rest ih =>
    obtain ⟨k0, w⟩ := p
    by_cases h0 : k0 = ip
    · subst h0
      have h2 : ¬ k0 = k := fun hh => h hh.symm
      simp [aerase, alookup, h2, ih]
    · by_cases h1 : k0 = k <;> simp [aerase, alookup, h0, h1, h, ih]

theorem alookup_mem {α : Type} {l : List (String × α)} {ip : String} {v : α}
    (h : alookup l ip = some v) : (ip, v) ∈ l := by
  induction l with
  | nil => simp [alookup] at h
  | cons p rest ih =>
    obtain ⟨k, w⟩ := p
    by_cases h0 : k = ip
    · subst h0
      simp [alookup] at h
      simp [h]
    · simp [alookup, h0] at h
      exact List.mem_cons_of_mem _ (ih h)

theorem alookup_eq_none {α : Type} {l : List (String × α)} {ip : String}
    (h : ip ∉ l.map Prod.fst) : alookup l ip = none := by
  induction l with
  | nil => simp [alookup]
  | cons p rest ih =>
    obtain ⟨k, w⟩ := p
    rw [List.map_cons, List.mem_cons] at h
    push_neg at h
    have h3 : ¬ k = ip := fun hh => h.1 hh.symm
    simp [alookup, h3, ih h.2]

theorem mem_aset {α : Type} {l : List (String × α)} {ip : String} {v : α}
    {q : String × α} (h : q ∈ aset l ip v) : q ∈ l ∨ q = (ip, v) := by
  induction l with
  | nil =>
    simp [aset] at h
    simp [h]
  | cons p rest ih =>
    obtain ⟨k, w⟩ := p
    by_cases h0 : k = ip
    · subst h0
      rw [aset, if_pos rfl, List.mem_cons] at h
      rcases h with h | h
      · exact Or.inr h
      · exact Or.inl (List.mem_cons_of_mem _ h)
    · rw [aset, if_neg h0, List.mem_cons] at h
      rcases h with h | h
      · exact Or.inl (by simp [h])
      · rcases ih h with h1 | h1
        · exact Or.inl (List.mem_cons_of_mem _ h1)
        · exact Or.inr h1

theorem keys_aset_subset {α : Type} {l : List (String × α)} {ip x : String}
    {v : α} (h : x ∈ (aset l ip v).map Prod.fst) :
    x ∈ l.map Prod.fst ∨ x = ip := by
  rcases List.mem_map.mp h with ⟨q, hq, hqx⟩
  rcases mem_aset hq with h1 | h1
  · exact Or.inl (hqx ▸ List.mem_map_of_mem Prod.fst h1)
  · subst h1
    exact Or.inr hqx.symm

theorem nodup_keys_aset {α : Type} {l : List (String × α)} (ip : String)
    (v : α) (h : (l.map Prod.fst).Nodup) :
    ((aset l ip v).map Prod.fst).Nodup := by
  induction l with
  | nil => simp [aset]
  | cons p rest ih =>
    obtain ⟨k, w⟩ := p
    rw [List.map_cons, List.nodup_cons] at h
    by_cases h0 : k = ip
    · subst h0
      rw [aset, if_pos rfl, List.map_cons, List.nodup_cons]
      exact h
    · rw [aset, if_neg h0, List.map_cons, List.nodup_cons]
      refine ⟨fun hx => ?_, ih h.2⟩
      rcases keys_aset_subset hx with h1 | h1
      · exact h.1 h1
      · exact h0 h1

theorem alookup_filter {α : Type} {l : List (String × α)} {ip : String}
    {v : α} (p : String × α → Bool) (hnd : (l.map Prod.fst).Nodup)
    (h : alookup l ip = some v) :
    alookup (l.filter p) ip = if p (ip, v) then some v else none := by
  induction l with
  | nil => simp [alookup] at h
  | cons q rest ih =>
    obtain ⟨k, w⟩ := q
    rw [List.map_cons, List.nodup_cons] at hnd
    by_cases h0 : k = ip
    · subst h0
      simp [alookup] at h
      subst h
      have hrest : alookup (rest.filter p) k = none := by
        apply alookup_eq_none
        intro hmem
        exact hnd.1 (((List.filter_sublist rest).map Prod.fst).subset hmem)
      by_cases hp : p (k, w) <;> simp [List.filter, hp, alookup, hrest]
    · simp [alookup, h0] at h
      by_cases hp : p (k, w) <;> simp [List.filter, hp, alookup, h0, ih hnd.2 h]

theorem nodup_keys_filter {α : Type} {l : List (String × α)}
    (p : String × α → Bool) (h : (l.map Prod.fst).Nodup) :
    ((l.filter p).map Prod.fst).Nodup :=
  ((List.filter_sublist l).map Prod.fst).nodup h

/-! ### Adapter helper lemmas -/

/-- A Block call that returns an error leaves the adapter index unchanged. -/
theorem Service.Block_err_state (bl : BlockerState) (sys : String)
    (osOk : Bool) (now : Time) (ip : String) (bt : BlockType) (dur : Time) :
    (Service.Block bl sys osOk now ip bt dur).err = true →
    (Service.Block bl sys osOk now ip bt dur).state = bl := by
  unfold Service.Block Service.blockAtOS
  split
  · split_ifs <;> simp
  · split_ifs <;> simp

/-! ### Claim theorems -/

/-- wrap64 is the identity on values already inside the int64 range. -/
theorem wrap64_eq_self (x : Int) (h1 : -9223372036854775808 ≤ x)
    (h2 : x < 9223372036854775808) : wrap64 x = x := by
  unfold wrap64
  omega

/-- Up to exponent 62 the multiplier loop computes the exact power of two
(each intermediate doubling still fits in int64). -/
theorem Middleware.geoLoop_exact (m : Nat) (hm : m ≤ 62) :
    Middleware.geoLoop m = 2 ^ m := by
  induction m with
  | zero => rfl
  | succ k ih =>
    rw [Middleware.geoLoop, ih (Nat.le_of_succ_le hm), ← pow_succ]
    apply wrap64_eq_self
    · calc (-9223372036854775808 : Int) ≤ 0 := by norm_num
        _ ≤ 2 ^ (k + 1) := pow_nonneg (by norm_num) _
    · calc ((2 : Int)) ^ (k + 1) < 2 ^ 63 :=
          (pow_lt_pow_iff_right₀ (by norm_num)).mpr (Nat.lt_succ_of_le hm)
        _ = 9223372036854775808 := by norm_num

/-- C4 (counterexample): with the repository's default base duration of 24h
(86400000000000 ns) in geometric mode, escalation count 17 overflows int64:
the product 86400000000000 * 2^17 wraps to a negative duration, so the value
returned is not B*2^n as the claim states for every n ≥ 0. -/
theorem whoen_c4_counterexample :
    Middleware.calculateTimeoutDuration ⟨3, true, 86400000000000, "geometric"⟩
      17 = -7122123273709551616 ∧
    Middleware.calculateTimeoutDuration ⟨3, true, 86400000000000, "geometric"⟩
      17 ≠ 86400000000000 * 2 ^ (17 : Int).toNat := by
  constructor
  · rfl
  · decide

/-- C4 (amended): calculateTimeoutDuration computes with Go's wrapping int64
(time.Duration) arithmetic; whenever the mathematical products stay strictly
inside the int64 range, it returns exactly B*2^n in geometric mode and
B*(n+1) in linear mode and under any unrecognized mode string; at n = 0 it
returns exactly B in both modes, unconditionally; outside that range the
product wraps. -/
theorem whoen_c4_escalation_formula (opts : Options) (n : Int) (hn : 0 ≤ n)
    (hgeo : -9223372036854775808 < opts.timeoutDuration * 2 ^ n.toNat ∧
      opts.timeoutDuration * 2 ^ n.toNat < 9223372036854775808)
    (hlin : n + 1 < 9223372036854775808 ∧
      -9223372036854775808 < opts.timeoutDuration * (n + 1) ∧
      opts.timeoutDuration * (n + 1) < 9223372036854775808) :
    (Middleware.calculateTimeoutDuration opts n
      = if opts.timeoutIncrease = "geometric"
        then opts.timeoutDuration * 2 ^ n.toNat
        else opts.timeoutDuration * (n + 1)) ∧
    (n = 0 → Middleware.calculateTimeoutDuration opts n = opts.timeoutDuration) := by
  constructor
  · unfold Middleware.calculateTimeoutDuration
    by_cases h0 : n = 0
    · subst h0
      by_cases hg : opts.timeoutIncrease = "geometric" <;> simp [hg]
    · by_cases hg : opts.timeoutIncrease = "geometric"
      · rw [if_neg h0, if_pos hg, if_pos hg]
        unfold Middleware.geometricMultiplier
        by_cases hB : opts.timeoutDuration = 0
        · rw [hB, zero_mul, zero_mul]
          exact wrap64_eq_self 0 (by norm_num) (by norm_num)
        · have habs : |opts.timeoutDuration * 2 ^ n.toNat|
              < 9223372036854775808 :=
            abs_lt.mpr ⟨hgeo.1, hgeo.2⟩
          have hpow : (2 : Int) ^ n.toNat < 9223372036854775808 := by
            calc (2 : Int) ^ n.toNat = 1 * 2 ^ n.toNat := (one_mul _).symm
              _ ≤ |opts.timeoutDuration| * 2 ^ n.toNat :=
                  mul_le_mul_of_nonneg_right (Int.one_le_abs hB)
                    (pow_nonneg (by norm_num) _)
              _ = |opts.timeoutDuration * 2 ^ n.toNat| := by
                  rw [abs_mul,
                    abs_of_nonneg (pow_nonneg (by norm_num : (0:Int) ≤ 2) n.toNat)]
              _ < 9223372036854775808 := habs
          have hpow2 : (2 : Int) ^ n.toNat < 2 ^ 63 := by
            calc (2 : Int) ^ n.toNat < 9223372036854775808 := hpow
              _ = 2 ^ 63 := by norm_num
          have hle62 : n.toNat ≤ 62 :=
            Nat.lt_succ_iff.mp ((pow_lt_pow_iff_right₀ (by norm_num)).mp hpow2)
          rw [Middleware.geoLoop_exact n.toNat hle62]
          exact wrap64_eq_self _ (le_of_lt hgeo.1) hgeo.2
      · rw [if_neg h0, if_neg hg, if_neg hg]
        rw [wrap64_eq_self (n + 1) (by omega) (by omega)]
        exact wrap64_eq_self _ (le_of_lt hlin.2.1) hlin.2.2
  · intro h0
    subst h0
    simp [Middleware.calculateTimeoutDuration]

/-- Witness for C4 (amended): base 3600, geometric mode, escalation count 2
gives 3600 * 2^2, all products comfortably inside int64. -/
theorem whoen_c4_escalation_formula_witness :
    (0 ≤ (2 : Int)) ∧
    (-9223372036854775808 < (3600 : Int) * 2 ^ (2 : Int).toNat ∧
      (3600 : Int) * 2 ^ (2 : Int).toNat < 9223372036854775808) ∧
    ((2 : Int) + 1 < 9223372036854775808 ∧
      -9223372036854775808 < (3600 : Int) * (2 + 1) ∧
      (3600 : Int) * (2 + 1) < 9223372036854775808) ∧
    ((Middleware.calculateTimeoutDuration ⟨3, true, 3600, "geometric"⟩ 2
      = if (Options.timeoutIncrease ⟨3, true, 3600, "geometric"⟩) = "geometric"
        then (Options.timeoutDuration ⟨3, true, 3600, "geometric"⟩)
          * 2 ^ (2 : Int).toNat
        else (Options.timeoutDuration ⟨3, true, 3600, "geometric"⟩) * (2 + 1)) ∧
     ((2 : Int) = 0 →
       Middleware.calculateTimeoutDuration ⟨3, true, 3600, "geometric"⟩ 2
         = Options.timeoutDuration ⟨3, true, 3600, "geometric"⟩)) :=
  ⟨by decide, ⟨by decide, by decide⟩, ⟨by decide, by decide, by decide⟩,
    whoen_c4_escalation_formula ⟨3, true, 3600, "geometric"⟩ 2 (by decide)
      ⟨by decide, by decide⟩ ⟨by decide, by decide, by decide⟩⟩

/-- C6: for a whitelisted address, HandleRequest returns Allow with no error
and no side effect: the Block Store and adapter index are returned untouched
and no OS command is issued, whatever the path and whatever block state
exists. -/
theorem whoen_c6_whitelist_absolute (opts : Options)
    (wl ml : String → Bool) (sys : String) (osOk : Bool)
    (st : StorageState) (bl : BlockerState) (now : Time) (ip path : String)
    (h : wl ip = true) :
    Middleware.HandleRequest opts wl ml sys osOk st bl now ip path
      = some ⟨false, false, st, bl, []⟩ := by
  unfold Middleware.HandleRequest
  simp [h]

/-- Witness for C6: a whitelisted address that is permanently blocked in the
adapter and hits a suspicious path is still allowed with no effect. -/
theorem whoen_c6_whitelist_absolute_witness :
    Middleware.HandleRequest ⟨1, true, 3600, "linear"⟩ (fun _ => true)
      (fun _ => true) "linux" true
      [] [("9.9.9.9", 0)] 100 "9.9.9.9" "/wp-admin"
      = some ⟨false, false, [], [("9.9.9.9", 0)], []⟩ :=
  whoen_c6_whitelist_absolute _ _ _ _ _ _ _ _ _ _ rfl

/-- C1 (failing input for the grace-period claim): with grace period 1 the
claim says hit 1 is allowed and counted and hit 2 blocks.  In the code the
record created by a suspicious hit has the zero-value blockedUntil, which the
storage read IsIPBlocked treats as an expired block and deletes, so the count
is erased on every evaluation: after the first hit the store is empty again,
and the second hit is also allowed with request count 1. -/
theorem whoen_c1_grace_period_failing :
    (Middleware.HandleRequest ⟨1, true, 3600, "linear"⟩ (fun _ => false)
       (fun _ => true) "linux" true [] [] 100 "203.0.113.5" "/wp-admin"
      = some ⟨false, false, [], [], []⟩) ∧
    (Middleware.HandleRequest ⟨1, true, 3600, "linear"⟩ (fun _ => false)
       (fun _ => true) "linux" true [] [] 101 "203.0.113.5" "/wp-admin"
      = some ⟨false, false, [], [], []⟩) := by
  constructor <;> rfl

/-- C2 (counterexample): grace period 0, fresh non-whitelisted address on a
suspicious path, enforcement command fails: HandleRequest returns Allow
together with the error and the Block Store is left without any block state,
refuting the claim that the intended block state is still written and the
decision is Block. -/
theorem whoen_c2_counterexample :
    Middleware.HandleRequest ⟨0, true, 3600, "linear"⟩ (fun _ => false)
      (fun _ => true) "linux" false [] [] 100 "203.0.113.5" "/env"
      = some ⟨false, true, [], [], [OSCmd.block "203.0.113.5"]⟩ := by rfl

/-- C2 (amended): whenever HandleRequest surfaces an error — which happens
exactly when the adapter Block call fails in the grace-exceeded branch — the
decision is Allow, the Block Store holds exactly the state left by the
increment-and-read (no block state written), and the adapter index is
unchanged from the state after the initial IsBlocked check; the failure is
surfaced to the caller rather than silently dropped. -/
theorem whoen_c2_enforcement_failure (opts : Options)
    (wl ml : String → Bool) (sys : String) (osOk : Bool)
    (st : StorageState) (bl : BlockerState) (now : Time) (ip path : String)
    (res : HandleResult)
    (h : Middleware.HandleRequest opts wl ml sys osOk st bl now ip path = some res)
    (he : res.err = true) :
    res.blocked = false ∧
    res.storage = (JSONStorage.IsIPBlocked
      (JSONStorage.IncrementRequestCount st now ip path) now ip).state ∧
    res.blocker = (Service.IsBlocked bl now ip).2.1 := by
  simp only [Middleware.HandleRequest] at h
  repeat' split at h
  all_goals (first | (injection h with h; subst h) | injection h)
  all_goals simp_all [Service.Block_err_state]

/-- Witness for C2 (amended), at the enforcement-failure input of the
counterexample. -/
theorem whoen_c2_enforcement_failure_witness :
    HandleResult.blocked ⟨false, true, [], [], [OSCmd.block "203.0.113.5"]⟩
      = false ∧
    HandleResult.storage ⟨false, true, [], [], [OSCmd.block "203.0.113.5"]⟩
      = (JSONStorage.IsIPBlocked
          (JSONStorage.IncrementRequestCount [] 100 "203.0.113.5" "/env")
          100 "203.0.113.5").state ∧
    HandleResult.blocker ⟨false, true, [], [], [OSCmd.block "203.0.113.5"]⟩
      = (Service.IsBlocked [] 100 "203.0.113.5").2.1 :=
  whoen_c2_enforcement_failure ⟨0, true, 3600, "linear"⟩ (fun _ => false)
    (fun _ => true) "linux" false [] [] 100 "203.0.113.5" "/env"
    ⟨false, true, [], [], [OSCmd.block "203.0.113.5"]⟩ (by rfl) rfl

/-- C3 (counterexample): the adapter holds a timeout entry for 1.2.3.4
expiring at 150; at now = 100 a Timeout Block call of duration 50 targets an
address already under a block of equal remaining duration, yet Service.Block
issues the OS command instead of being a no-op (the guard uses a strict
Before comparison), refuting the equal-or-greater part of the claim. -/
theorem whoen_c3_counterexample :
    (Service.Block [("1.2.3.4", 150)] "linux" true 100 "1.2.3.4"
      BlockType.Timeout 50).cmds = [OSCmd.block "1.2.3.4"] := by rfl

/-- C3 (amended): for an address with an existing adapter entry exp:
a permanent entry makes any Block call a commandless no-op; a Timeout call
with now + duration strictly below exp is a commandless no-op; a Timeout call
with now + duration at most exp never shortens the entry; a Timeout call with
now + duration equal to exp does re-issue the OS command (leaving the stored
expiry unchanged); Ban always wins, leaving a permanent entry; and a strictly
longer Timeout replaces the entry. -/
theorem whoen_c3_block_monotone (bl : BlockerState) (sys : String)
    (osOk : Bool) (now dur exp : Time) (ip : String) (bt : BlockType)
    (h : alookup bl ip = some exp) :
    (exp = 0 → Service.Block bl sys osOk now ip bt dur = ⟨bl, [], false⟩) ∧
    (bt = BlockType.Timeout → now + dur < exp →
      Service.Block bl sys osOk now ip bt dur = ⟨bl, [], false⟩) ∧
    (now + dur ≤ exp →
      alookup (Service.Block bl sys osOk now ip BlockType.Timeout dur).state ip
        = some exp) ∧
    (exp ≠ 0 → now + dur = exp → supportedSystem sys = true → osOk = true →
      (Service.Block bl sys osOk now ip BlockType.Timeout dur).cmds
        = [OSCmd.block ip]) ∧
    (supportedSystem sys = true → osOk = true →
      alookup (Service.Block bl sys osOk now ip BlockType.Ban dur).state ip
        = some 0) ∧
    (exp ≠ 0 → exp < now + dur → supportedSystem sys = true → osOk = true →
      alookup (Service.Block bl sys osOk now ip BlockType.Timeout dur).state ip
        = some (now + dur)) := by
  have hTB : ¬ (BlockType.Timeout = BlockType.Ban) := fun hh => by cases hh
  refine ⟨?_, ?_, ?_, ?_, ?_, ?_⟩
  · intro h0
    simp only [Service.Block, h]
    rw [if_pos (Or.inl h0)]
  · intro hbt hlt
    simp only [Service.Block, h]
    rw [if_pos (Or.inr ⟨hbt, hlt⟩)]
  · intro hle
    simp only [Service.Block, h]
    rcases lt_or_eq_of_le hle with hlt | heq
    · rw [if_pos (Or.inr ⟨trivial, hlt⟩)]
      exact h
    · by_cases h0 : exp = 0
      · rw [if_pos (Or.inl h0)]
        exact h
      · rw [if_neg (by
          simp only [true_and]
          rintro (hc | hc)
          · exact h0 hc
          · exact absurd (heq ▸ hc) (lt_irrefl exp))]
        unfold Service.blockAtOS
        rw [if_neg hTB]
        split_ifs with hs ho
        · show alookup (aset bl ip (now + dur)) ip = some exp
          rw [alookup_aset_self, heq]
        · exact h
        · exact h
  · intro h0 heq hs ho
    simp only [Service.Block, h]
    rw [if_neg (by
      simp only [true_and]
      rintro (hc | hc)
      · exact h0 hc
      · exact absurd (heq ▸ hc) (lt_irrefl exp))]
    unfold Service.blockAtOS
    rw [if_pos hs, if_pos ho]
  · intro hs ho
    simp only [Service.Block, h]
    by_cases h0 : exp = 0
    · rw [if_pos (Or.inl h0)]
      show alookup bl ip = some 0
      rw [h, h0]
    · rw [if_neg (by push_neg; exact ⟨h0, fun hh => by cases hh⟩)]
      unfold Service.blockAtOS
      rw [if_pos rfl, if_pos hs, if_pos ho]
      show alookup (aset bl ip 0) ip = some 0
      rw [alookup_aset_self]
  · intro h0 hlt hs ho
    simp only [Service.Block, h]
    rw [if_neg (by
      simp only [true_and]
      rintro (hc | hc)
      · exact h0 hc
      · exact absurd (hc.trans hlt) (lt_irrefl _))]
    unfold Service.blockAtOS
    rw [if_neg hTB, if_pos hs, if_pos ho]
    show alookup (aset bl ip (now + dur)) ip = some (now + dur)
    rw [alookup_aset_self]

/-- Witness for C3 (amended) on a concrete one-entry index. -/
theorem whoen_c3_block_monotone_witness :
    ((150 : Time) = 0 →
      Service.Block [("9.9.9.9", 150)] "linux" true 100 "9.9.9.9"
        BlockType.Timeout 50 = ⟨[("9.9.9.9", 150)], [], false⟩) ∧
    (BlockType.Timeout = BlockType.Timeout → (100 : Time) + 50 < 150 →
      Service.Block [("9.9.9.9", 150)] "linux" true 100 "9.9.9.9"
        BlockType.Timeout 50 = ⟨[("9.9.9.9", 150)], [], false⟩) ∧
    ((100 : Time) + 50 ≤ 150 →
      alookup (Service.Block [("9.9.9.9", 150)] "linux" true 100 "9.9.9.9"
        BlockType.Timeout 50).state "9.9.9.9" = some 150) ∧
    ((150 : Time) ≠ 0 → (100 : Time) + 50 = 150 →
      supportedSystem "linux" = true → true = true →
      (Service.Block [("9.9.9.9", 150)] "linux" true 100 "9.9.9.9"
        BlockType.Timeout 50).cmds = [OSCmd.block "9.9.9.9"]) ∧
    (supportedSystem "linux" = true → true = true →
      alookup (Service.Block [("9.9.9.9", 150)] "linux" true 100 "9.9.9.9"
        BlockType.Ban 50).state "9.9.9.9" = some 0) ∧
    ((150 : Time) ≠ 0 → (150 : Time) < 100 + 50 →
      supportedSystem "linux" = true → true = true →
      alookup (Service.Block [("9.9.9.9", 150)] "linux" true 100 "9.9.9.9"
        BlockType.Timeout 50).state "9.9.9.9" = some (100 + 50)) :=
  whoen_c3_block_monotone [("9.9.9.9", 150)] "linux" true 100 50 150 "9.9.9.9"
    BlockType.Timeout (by rfl)

/-- The keep-condition of the storage sweep, as a proposition. -/
theorem cleanupKeep_iff (st : BlockStatus) (now : Time) :
    ((!(!st.isPermanent && decide (now > st.blockedUntil))) = true)
      ↔ ¬(st.isPermanent = false ∧ st.blockedUntil < now) := by
  cases hp : st.isPermanent <;> simp [hp, gt_iff_lt]

/-- C5: a stored record that is non-permanent with blockedUntil in the past is
reported not blocked by the read even while still physically present; a
permanent record is always reported blocked and never reported expired; and
the sweep removes exactly the records satisfying the same predicate
(non-permanent and blockedUntil before now). -/
theorem whoen_c5_expiry_agreement (s : StorageState) (now : Time)
    (ip : String) (st : BlockStatus) :
    (alookup s ip = some st → st.isPermanent = false → st.blockedUntil < now →
      (JSONStorage.IsIPBlocked s now ip).blocked = false) ∧
    (alookup s ip = some st → st.isPermanent = true →
      (JSONStorage.IsIPBlocked s now ip).blocked = true) ∧
    ((ip, st) ∈ JSONStorage.CleanupExpired s now ↔
      ((ip, st) ∈ s ∧ ¬(st.isPermanent = false ∧ st.blockedUntil < now))) := by
  refine ⟨?_, ?_, ?_⟩
  · intro h hp hu
    simp only [JSONStorage.IsIPBlocked, h]
    rw [if_pos ⟨hp, hu⟩]
  · intro h hp
    simp only [JSONStorage.IsIPBlocked, h]
    rw [if_neg (by rintro ⟨h1, h2⟩; rw [hp] at h1; cases h1)]
  · unfold JSONStorage.CleanupExpired
    rw [List.mem_filter]
    exact and_congr_right (fun _ => cleanupKeep_iff st now)

/-- Witness for C5 on a one-record store holding an expired timed block. -/
theorem whoen_c5_expiry_agreement_witness :
    (alookup [("6.6.6.6", (⟨"6.6.6.6", 0, 50, 4, 1, false, "/x"⟩ : BlockStatus))]
        "6.6.6.6" = some ⟨"6.6.6.6", 0, 50, 4, 1, false, "/x"⟩ →
      BlockStatus.isPermanent ⟨"6.6.6.6", 0, 50, 4, 1, false, "/x"⟩ = false →
      BlockStatus.blockedUntil ⟨"6.6.6.6", 0, 50, 4, 1, false, "/x"⟩ < 100 →
      (JSONStorage.IsIPBlocked
        [("6.6.6.6", (⟨"6.6.6.6", 0, 50, 4, 1, false, "/x"⟩ : BlockStatus))] 100
        "6.6.6.6").blocked = false) ∧
    (alookup [("6.6.6.6", (⟨"6.6.6.6", 0, 50, 4, 1, false, "/x"⟩ : BlockStatus))]
        "6.6.6.6" = some ⟨"6.6.6.6", 0, 50, 4, 1, false, "/x"⟩ →
      BlockStatus.isPermanent ⟨"6.6.6.6", 0, 50, 4, 1, false, "/x"⟩ = true →
      (JSONStorage.IsIPBlocked
        [("6.6.6.6", (⟨"6.6.6.6", 0, 50, 4, 1, false, "/x"⟩ : BlockStatus))] 100
        "6.6.6.6").blocked = true) ∧
    (("6.6.6.6", (⟨"6.6.6.6", 0, 50, 4, 1, false, "/x"⟩ : BlockStatus))
        ∈ JSONStorage.CleanupExpired
            [("6.6.6.6", (⟨"6.6.6.6", 0, 50, 4, 1, false, "/x"⟩ : BlockStatus))]
            100 ↔
      (("6.6.6.6", (⟨"6.6.6.6", 0, 50, 4, 1, false, "/x"⟩ : BlockStatus))
          ∈ [("6.6.6.6", (⟨"6.6.6.6", 0, 50, 4, 1, false, "/x"⟩ : BlockStatus))] ∧
        ¬(BlockStatus.isPermanent ⟨"6.6.6.6", 0, 50, 4, 1, false, "/x"⟩ = false ∧
          BlockStatus.blockedUntil ⟨"6.6.6.6", 0, 50, 4, 1, false, "/x"⟩ < 100))) :=
  whoen_c5_expiry_agreement
    [("6.6.6.6", (⟨"6.6.6.6", 0, 50, 4, 1, false, "/x"⟩ : BlockStatus))]
    100 "6.6.6.6" ⟨"6.6.6.6", 0, 50, 4, 1, false, "/x"⟩

/-- After IncrementRequestCount, the incremented address has a record. -/
theorem incReq_lookup_isSome (s : StorageState) (now : Time)
    (ip path : String) :
    (alookup (JSONStorage.IncrementRequestCount s now ip path) ip).isSome
      = true := by
  unfold JSONStorage.IncrementRequestCount
  cases h : alookup s ip <;> simp [alookup_aset_self]

/-- The storage read returns as status exactly the looked-up record. -/
theorem isIPBlocked_status_eq (s : StorageState) (now : Time) (ip : String) :
    (JSONStorage.IsIPBlocked s now ip).status = alookup s ip := by
  unfold JSONStorage.IsIPBlocked
  split
  next heq => rw [heq]
  next st heq => split_ifs <;> rw [heq]

/-- C9: HandleRequest runs to completion and returns a decision/error pair on
every input - any address string (present in storage or not), any path, any
matcher and whitelist outcome, any system type (including unsupported ones),
any OS-command outcome, and any store contents; in particular the final
logging line never dereferences a nil status, and failures surface in the err
field of the result rather than aborting. -/
theorem whoen_c9_total (opts : Options) (wl ml : String → Bool) (sys : String)
    (osOk : Bool) (st : StorageState) (bl : BlockerState) (now : Time)
    (ip path : String) :
    (Middleware.HandleRequest opts wl ml sys osOk st bl now ip path).isSome
      = true := by
  have hstat : ((JSONStorage.IsIPBlocked
      (JSONStorage.IncrementRequestCount st now ip path) now ip).status).isSome
        = true := by
    rw [isIPBlocked_status_eq]
    exact incReq_lookup_isSome st now ip path
  obtain ⟨s0, hs0⟩ := Option.isSome_iff_exists.mp hstat
  unfold Middleware.HandleRequest
  simp only [hs0]
  repeat' split
  all_goals simp_all

/-- The sweep loop with a supported system and succeeding commands keeps the
non-expired entries, issues one OS unblock per expired entry, and reports no
error. -/
theorem cleanupGo_ok (sys : String) (now : Time) (l : BlockerState)
    (hsys : supportedSystem sys = true) :
    Service.cleanupGo sys true now l =
      (l.filter (fun p => decide ¬(p.2 ≠ 0 ∧ now > p.2)),
       (l.filter (fun p => decide (p.2 ≠ 0 ∧ now > p.2))).map
         (fun p => OSCmd.unblock p.1),
       false) := by
  induction l with
  | nil => rfl
  | cons p rest ih =>
    obtain ⟨ip0, exp0⟩ := p
    by_cases hc : exp0 ≠ 0 ∧ now > exp0
    · simp [Service.cleanupGo, hc, hsys, ih, List.filter_cons]
    · have hd : exp0 = 0 ∨ now ≤ exp0 := by
        rcases not_and_or.mp hc with h1 | h1
        · exact Or.inl (not_not.mp h1)
        · exact Or.inr (not_lt.mp h1)
      simp [Service.cleanupGo, hc, hsys, ih, List.filter_cons]
      rw [if_pos hd]

/-- C10: for an adapter entry that is non-permanent (nonzero expiry) and
already expired, IsBlocked reports not blocked and removes the entry from the
in-memory index without issuing any OS command, while CleanupExpired on the
same index issues the OS unblock for that address before removing it (and
reports no error); so after a lazy IsBlocked read the host rule can remain
installed with no index entry recording it. -/
theorem whoen_c10_lazy_adapter_delete (bl : BlockerState) (sys : String)
    (now exp : Time) (ip : String)
    (h : alookup bl ip = some exp) (h0 : exp ≠ 0) (hlt : exp < now)
    (hnd : (bl.map Prod.fst).Nodup) (hsys : supportedSystem sys = true) :
    Service.IsBlocked bl now ip = (false, aerase bl ip, []) ∧
    OSCmd.unblock ip ∈ (Service.CleanupExpired bl sys true now).2.1 ∧
    alookup (Service.CleanupExpired bl sys true now).1 ip = none ∧
    (Service.CleanupExpired bl sys true now).2.2 = false := by
  have hcond : decide (exp ≠ 0 ∧ now > exp) = true := by
    simp [h0, gt_iff_lt, hlt]
  refine ⟨?_, ?_, ?_, ?_⟩
  · simp only [Service.IsBlocked, h]
    rw [if_neg (by
      rintro (hc | hc)
      · exact h0 hc
      · exact absurd (hlt.trans hc) (lt_irrefl _))]
  · rw [Service.CleanupExpired, cleanupGo_ok sys now bl hsys]
    exact List.mem_map_of_mem _
      (List.mem_filter.mpr ⟨alookup_mem h, hcond⟩)
  · rw [Service.CleanupExpired, cleanupGo_ok sys now bl hsys]
    have hlook := alookup_filter
      (fun p => decide ¬(p.2 ≠ 0 ∧ now > p.2)) hnd h
    rw [hlook]
    simp [h0, gt_iff_lt, hlt]
  · rw [Service.CleanupExpired, cleanupGo_ok sys now bl hsys]

/-- Witness for C10 on a one-entry index expired at 50, read at 100. -/
theorem whoen_c10_lazy_adapter_delete_witness :
    Service.IsBlocked [("1.2.3.4", 50)] 100 "1.2.3.4"
      = (false, aerase [("1.2.3.4", 50)] "1.2.3.4", []) ∧
    OSCmd.unblock "1.2.3.4"
      ∈ (Service.CleanupExpired [("1.2.3.4", 50)] "linux" true 100).2.1 ∧
    alookup (Service.CleanupExpired [("1.2.3.4", 50)] "linux" true 100).1
      "1.2.3.4" = none ∧
    (Service.CleanupExpired [("1.2.3.4", 50)] "linux" true 100).2.2 = false :=
  whoen_c10_lazy_adapter_delete [("1.2.3.4", 50)] "linux" 100 50 "1.2.3.4"
    (by rfl) (by decide) (by decide) (by simp) (by rfl)

/-! ### Block Store invariant lemmas (C8) -/

theorem aerase_sublist {α : Type} (l : List (String × α)) (ip : String) :
    List.Sublist (aerase l ip) l := by
  induction l with
  | nil => simp [aerase]
  | cons p rest ih =>
    obtain ⟨k, v⟩ := p
    by_cases h : k = ip
    · rw [aerase, if_pos h]
      exact ih.cons _
    · rw [aerase, if_neg h]
      exact ih.cons₂ _

theorem mem_aerase {α : Type} {l : List (String × α)} {ip : String}
    {q : String × α} (h : q ∈ aerase l ip) : q ∈ l :=
  (aerase_sublist l ip).subset h

theorem allCountPos_iff (s : StorageState) :
    allCountPos s = true ↔ ∀ p ∈ s, 1 ≤ p.2.requestCount := by
  simp [allCountPos, List.all_eq_true]

theorem allCountPos_aset (s : StorageState) (ip : String) (v : BlockStatus)
    (h : allCountPos s = true) (hv : 1 ≤ v.requestCount) :
    allCountPos (aset s ip v) = true := by
  rw [allCountPos_iff] at h ⊢
  intro p hp
  rcases mem_aset hp with hm | hm
  · exact h p hm
  · rw [hm]
    exact hv

/-- Every single Block Store operation preserves requestCount ≥ 1. -/
theorem countPos_applyOp (s : StorageState) (o : StoreOp)
    (h : allCountPos s = true) : allCountPos (applyOp s o) = true := by
  cases o with
  | incReq now ip path =>
    show allCountPos (JSONStorage.IncrementRequestCount s now ip path) = true
    unfold JSONStorage.IncrementRequestCount
    split
    next st hl =>
      refine allCountPos_aset s ip _ h ?_
      have h1 : 1 ≤ st.requestCount :=
        (allCountPos_iff s).mp h _ (alookup_mem hl)
      show 1 ≤ st.requestCount + 1
      omega
    next hl =>
      exact allCountPos_aset s ip _ h (le_refl 1)
  | blockIP now ip u perm path =>
    show allCountPos (JSONStorage.BlockIP s now ip u perm path) = true
    unfold JSONStorage.BlockIP
    split
    next st hl =>
      refine allCountPos_aset s ip _ h ?_
      exact (allCountPos_iff s).mp h _ (alookup_mem hl)
    next hl =>
      exact allCountPos_aset s ip _ h (le_refl 1)
  | incTimeout ip =>
    show allCountPos (JSONStorage.IncrementTimeoutCount s ip) = true
    unfold JSONStorage.IncrementTimeoutCount
    split
    next st hl =>
      refine allCountPos_aset s ip _ h ?_
      exact (allCountPos_iff s).mp h _ (alookup_mem hl)
    next hl => exact h
  | cleanup now =>
    rw [allCountPos_iff] at h ⊢
    intro p hp
    exact h p (List.mem_filter.mp hp).1
  | unblockIP ip =>
    rw [allCountPos_iff] at h ⊢
    intro p hp
    exact h p (mem_aerase hp)

/-- Every single Block Store operation keeps the map keys unique. -/
theorem keysNodup_applyOp (s : StorageState) (o : StoreOp)
    (h : (s.map Prod.fst).Nodup) : ((applyOp s o).map Prod.fst).Nodup := by
  cases o with
  | incReq now ip path =>
    show ((JSONStorage.IncrementRequestCount s now ip path).map Prod.fst).Nodup
    unfold JSONStorage.IncrementRequestCount
    split
    next st hl => exact nodup_keys_aset ip _ h
    next hl => exact nodup_keys_aset ip _ h
  | blockIP now ip u perm path =>
    show ((JSONStorage.BlockIP s now ip u perm path).map Prod.fst).Nodup
    unfold JSONStorage.BlockIP
    split
    next st hl => exact nodup_keys_aset ip _ h
    next hl => exact nodup_keys_aset ip _ h
  | incTimeout ip =>
    show ((JSONStorage.IncrementTimeoutCount s ip).map Prod.fst).Nodup
    unfold JSONStorage.IncrementTimeoutCount
    split
    next st hl => exact nodup_keys_aset ip _ h
    next hl => exact h
  | cleanup now => exact nodup_keys_filter _ h
  | unblockIP ip => exact ((aerase_sublist s ip).map Prod.fst).nodup h

/-- For a record present before and after one operation, the timeout
escalation count never decreases. -/
theorem timeoutMono_applyOp (s : StorageState) (o : StoreOp) (ip : String)
    (st st' : BlockStatus) (hnd : (s.map Prod.fst).Nodup)
    (h1 : alookup s ip = some st) (h2 : alookup (applyOp s o) ip = some st') :
    st.timeoutCount ≤ st'.timeoutCount := by
  cases o with
  | incReq now ip0 path =>
    simp only [applyOp, JSONStorage.IncrementRequestCount] at h2
    by_cases he : ip0 = ip
    · subst he
      simp only [h1] at h2
      rw [alookup_aset_self] at h2
      obtain rfl := Option.some.inj h2
      exact le_refl _
    · split at h2 <;>
        (rw [alookup_aset_ne _ _ _ _ (Ne.symm he), h1] at h2
         obtain rfl := Option.some.inj h2
         exact le_refl _)
  | blockIP now ip0 u perm path =>
    simp only [applyOp, JSONStorage.BlockIP] at h2
    by_cases he : ip0 = ip
    · subst he
      simp only [h1] at h2
      rw [alookup_aset_self] at h2
      obtain rfl := Option.some.inj h2
      exact le_refl _
    · split at h2 <;>
        (rw [alookup_aset_ne _ _ _ _ (Ne.symm he), h1] at h2
         obtain rfl := Option.some.inj h2
         exact le_refl _)
  | incTimeout ip0 =>
    simp only [applyOp, JSONStorage.IncrementTimeoutCount] at h2
    by_cases he : ip0 = ip
    · subst he
      simp only [h1] at h2
      rw [alookup_aset_self] at h2
      obtain rfl := Option.some.inj h2
      show st.timeoutCount ≤ st.timeoutCount + 1
      omega
    · split at h2
      next st0 hl =>
        rw [alookup_aset_ne _ _ _ _ (Ne.symm he), h1] at h2
        obtain rfl := Option.some.inj h2
        exact le_refl _
      next hl =>
        rw [h1] at h2
        obtain rfl := Option.some.inj h2
        exact le_refl _
  | cleanup now =>
    simp only [applyOp, JSONStorage.CleanupExpired] at h2
    rw [alookup_filter _ hnd h1] at h2
    split_ifs at h2
    obtain rfl := Option.some.inj h2
    exact le_refl _
  | unblockIP ip0 =>
    simp only [applyOp, JSONStorage.UnblockIP] at h2
    by_cases he : ip0 = ip
    · subst he
      rw [alookup_aerase_self] at h2
      cases h2
    · rw [alookup_aerase_ne _ _ _ (Ne.symm he), h1] at h2
      obtain rfl := Option.some.inj h2
      exact le_refl _

theorem countPos_applyOps (s : StorageState) (ops : List StoreOp)
    (h : allCountPos s = true) : allCountPos (applyOps s ops) = true := by
  induction ops generalizing s with
  | nil => exact h
  | cons o os ih => exact ih (applyOp s o) (countPos_applyOp s o h)

theorem timeoutMono_applyOps (s : StorageState) (ops : List StoreOp)
    (ip : String) (st st' : BlockStatus) (hnd : (s.map Prod.fst).Nodup)
    (h1 : alookup s ip = some st)
    (h2 : alookup (applyOps s ops) ip = some st')
    (hp : presentAll s ip ops = true) :
    st.timeoutCount ≤ st'.timeoutCount := by
  induction ops generalizing s st with
  | nil =>
    obtain rfl := Option.some.inj (h1.symm.trans h2)
    exact le_refl _
  | cons o os ih =>
    simp only [presentAll, Bool.and_eq_true] at hp
    obtain ⟨st1, hmid⟩ := Option.isSome_iff_exists.mp hp.1
    exact le_trans
      (timeoutMono_applyOp s o ip st st1 hnd h1 hmid)
      (ih (applyOp s o) st1 (keysNodup_applyOp s o hnd) hmid h2 hp.2)

/-- C8: from any Block Store state satisfying the data-model invariants
(requestCount ≥ 1 for every record; one record per address), every sequence of
the mutators IncrementRequestCount, BlockIP, IncrementTimeoutCount,
CleanupExpired and UnblockIP preserves requestCount ≥ 1 for every existing
record, and the timeout escalation count of a record never decreases for as
long as the record stays present. -/
theorem whoen_c8_invariants (s : StorageState) (ops : List StoreOp)
    (ip : String) (st st' : BlockStatus)
    (hc : allCountPos s = true) (hnd : (s.map Prod.fst).Nodup) :
    allCountPos (applyOps s ops) = true ∧
    (alookup s ip = some st → alookup (applyOps s ops) ip = some st' →
      presentAll s ip ops = true → st.timeoutCount ≤ st'.timeoutCount) :=
  ⟨countPos_applyOps s ops hc,
   fun h1 h2 hp => timeoutMono_applyOps s ops ip st st' hnd h1 h2 hp⟩

/-- Witness for C8: a one-record store, a timeout-count bump followed by a
request-count bump. -/
theorem whoen_c8_invariants_witness :
    allCountPos (applyOps
      [("7.7.7.7", (⟨"7.7.7.7", 0, 0, 1, 0, false, "/x"⟩ : BlockStatus))]
      [StoreOp.incTimeout "7.7.7.7", StoreOp.incReq 5 "7.7.7.7" "/y"]) = true ∧
    (alookup [("7.7.7.7", (⟨"7.7.7.7", 0, 0, 1, 0, false, "/x"⟩ : BlockStatus))]
        "7.7.7.7" = some ⟨"7.7.7.7", 0, 0, 1, 0, false, "/x"⟩ →
      alookup (applyOps
        [("7.7.7.7", (⟨"7.7.7.7", 0, 0, 1, 0, false, "/x"⟩ : BlockStatus))]
        [StoreOp.incTimeout "7.7.7.7", StoreOp.incReq 5 "7.7.7.7" "/y"])
        "7.7.7.7" = some ⟨"7.7.7.7", 0, 0, 2, 1, false, "/y"⟩ →
      presentAll
        [("7.7.7.7", (⟨"7.7.7.7", 0, 0, 1, 0, false, "/x"⟩ : BlockStatus))]
        "7.7.7.7"
        [StoreOp.incTimeout "7.7.7.7", StoreOp.incReq 5 "7.7.7.7" "/y"] = true →
      BlockStatus.timeoutCount ⟨"7.7.7.7", 0, 0, 1, 0, false, "/x"⟩
        ≤ BlockStatus.timeoutCount ⟨"7.7.7.7", 0, 0, 2, 1, false, "/y"⟩) :=
  whoen_c8_invariants
    [("7.7.7.7", (⟨"7.7.7.7", 0, 0, 1, 0, false, "/x"⟩ : BlockStatus))]
    [StoreOp.incTimeout "7.7.7.7", StoreOp.incReq 5 "7.7.7.7" "/y"]
    "7.7.7.7" ⟨"7.7.7.7", 0, 0, 1, 0, false, "/x"⟩
    ⟨"7.7.7.7", 0, 0, 2, 1, false, "/y"⟩ (by decide) (by decide)

/-! ### Restore Procedure lemmas (C7) -/

/-- Setting a key absent from the map appends the binding. -/
theorem aset_append_of_fresh {α : Type} (l : List (String × α)) (ip : String)
    (v : α) (h : alookup l ip = none) : aset l ip v = l ++ [(ip, v)] := by
  induction l with
  | nil => rfl
  | cons p rest ih =>
    obtain ⟨k, w⟩ := p
    simp only [alookup] at h
    by_cases h0 : k = ip
    · rw [if_pos h0] at h
      cases h
    · rw [if_neg h0] at h
      rw [aset, if_neg h0, ih h, List.cons_append]

/-- A Block call on a fresh address with a supported system and a succeeding
command installs the entry and issues the block command. -/
theorem Service.Block_fresh (bl : BlockerState) (sys : String) (now : Time)
    (ip : String) (bt : BlockType) (dur : Time)
    (h : alookup bl ip = none) (hsys : supportedSystem sys = true) :
    Service.Block bl sys true now ip bt dur =
      ⟨aset bl ip (if bt = BlockType.Ban then 0 else now + dur),
       [OSCmd.block ip], false⟩ := by
  simp [Service.Block, h, Service.blockAtOS, hsys]

/-- Lookup in an entry map built from a record list: a listed record's address
maps to that record's entry. -/
theorem alookup_map_entry {α : Type} (l : List BlockStatus)
    (f : BlockStatus → α) (q : BlockStatus) (hq : q ∈ l)
    (hnd : (l.map BlockStatus.ip).Nodup) :
    alookup (l.map (fun x => (x.ip, f x))) q.ip = some (f q) := by
  induction l with
  | nil => cases hq
  | cons x rest ih =>
    rw [List.map_cons, List.nodup_cons] at hnd
    rw [List.map_cons]
    by_cases h0 : x.ip = q.ip
    · have hqx : q = x := by
        rcases List.mem_cons.mp hq with h | h
        · exact h
        · exact absurd
            (show x.ip ∈ rest.map BlockStatus.ip by
              rw [h0]; exact List.mem_map_of_mem _ h) hnd.1
      subst hqx
      simp [alookup]
    · have hqr : q ∈ rest := by
        rcases List.mem_cons.mp hq with h | h
        · exact absurd (show x.ip = q.ip by rw [h]) h0
        · exact h
      simp only [alookup]
      rw [if_neg h0]
      exact ih hqr hnd.2

/-- Lookup in an entry map built from a record list: an unlisted address maps
to nothing. -/
theorem alookup_map_entry_none {α : Type} (l : List BlockStatus)
    (f : BlockStatus → α) (k : String) (hk : k ∉ l.map BlockStatus.ip) :
    alookup (l.map (fun x => (x.ip, f x))) k = none := by
  apply alookup_eq_none
  intro hmem
  apply hk
  rcases List.mem_map.mp hmem with ⟨p, hp, hpe⟩
  rcases List.mem_map.mp hp with ⟨x, hx, hxe⟩
  have hkx : k = x.ip := by rw [← hpe, ← hxe]
  rw [hkx]
  exact List.mem_map_of_mem _ hx

/-- Full characterization of the RestoreBlocks loop on distinct addresses all
fresh in the accumulator index, with a supported system and succeeding
commands: it returns the filter-counts, appends one index entry per kept
record (permanent marker 0 or the record's blockedUntil), and issues one block
command per kept record. -/
theorem restoreLoop_spec (sys : String) (now : Time)
    (records : List BlockStatus) (bl : BlockerState)
    (hsys : supportedSystem sys = true)
    (hnd : (records.map BlockStatus.ip).Nodup)
    (hfresh : ∀ q ∈ records, alookup bl q.ip = none) :
    Middleware.restoreLoop sys true now records bl =
      some ⟨(records.filter
              (fun q => decide (q.isPermanent = true ∨ now < q.blockedUntil))).length,
            (records.filter
              (fun q => decide ¬(q.isPermanent = true ∨ now < q.blockedUntil))).length,
            bl ++ (records.filter
              (fun q => decide (q.isPermanent = true ∨ now < q.blockedUntil))).map
                (fun q => (q.ip, if q.isPermanent then (0 : Time) else q.blockedUntil)),
            (records.filter
              (fun q => decide (q.isPermanent = true ∨ now < q.blockedUntil))).map
                (fun q => OSCmd.block q.ip)⟩ := by
  induction records generalizing bl with
  | nil => simp [Middleware.restoreLoop]
  | cons q rest ih =>
    rw [List.map_cons, List.nodup_cons] at hnd
    have hfq := hfresh q (List.mem_cons_self q rest)
    have hfr : ∀ q2 ∈ rest, alookup bl q2.ip = none :=
      fun q2 hq2 => hfresh q2 (List.mem_cons_of_mem q hq2)
    have hfrne : ∀ (v : Time), ∀ q2 ∈ rest,
        alookup (aset bl q.ip v) q2.ip = none := by
      intro v q2 hq2
      rw [alookup_aset_ne]
      · exact hfr q2 hq2
      · intro hh
        exact hnd.1 (hh ▸ List.mem_map_of_mem BlockStatus.ip hq2)
    by_cases hkeep : q.isPermanent = true ∨ now < q.blockedUntil
    · -- the record is reinstalled
      cases hqp : q.isPermanent with
      | true =>
        have hrec := ih (aset bl q.ip 0) hnd.2 (hfrne 0)
        have happ := aset_append_of_fresh bl q.ip 0 hfq
        rw [happ] at hrec
        simp only [Middleware.restoreLoop,
          if_neg (show ¬(q.isPermanent = false ∧ q.blockedUntil < now) by
            simp [hqp]),
          if_pos hqp,
          Service.Block_fresh bl sys now q.ip BlockType.Ban 0 hfq hsys]
        simp [hrec, happ, List.filter_cons, hqp, List.append_assoc]
      | false =>
        have htlt : now < q.blockedUntil := by
          rcases hkeep with hc | hc
          · rw [hqp] at hc; cases hc
          · exact hc
        have hsum : now + (q.blockedUntil - now) = q.blockedUntil := by ring
        have hrec := ih (aset bl q.ip q.blockedUntil) hnd.2
          (hfrne q.blockedUntil)
        have happ := aset_append_of_fresh bl q.ip q.blockedUntil hfq
        rw [happ] at hrec
        simp only [Middleware.restoreLoop,
          if_neg (show ¬(q.isPermanent = false ∧ q.blockedUntil < now) from
            fun hc => absurd hc.2 (not_lt.mpr (le_of_lt htlt))),
          if_neg (show ¬(q.isPermanent = true) by simp [hqp]),
          if_neg (not_le.mpr (sub_pos.mpr htlt)),
          Service.Block_fresh bl sys now q.ip BlockType.Timeout
            (q.blockedUntil - now) hfq hsys]
        simp [hsum, hrec, happ, List.filter_cons, hqp, htlt,
          not_le.mpr htlt, List.append_assoc]
    · -- the record is skipped
      have hqp : q.isPermanent = false := by
        cases hqb : q.isPermanent
        · rfl
        · exact absurd (Or.inl hqb) hkeep
      have hnlt : ¬(now < q.blockedUntil) := fun hc => hkeep (Or.inr hc)
      have hrec := ih bl hnd.2 hfr
      by_cases hlt : q.blockedUntil < now
      · simp only [Middleware.restoreLoop,
          if_pos (show q.isPermanent = false ∧ q.blockedUntil < now from
            ⟨hqp, hlt⟩), hrec]
        simp [List.filter_cons, hqp, hnlt, not_lt.mp hnlt]
      · simp only [Middleware.restoreLoop,
          if_neg (show ¬(q.isPermanent = false ∧ q.blockedUntil < now) from
            fun hc => absurd hc.2 hlt),
          if_neg (show ¬(q.isPermanent = true) by simp [hqp]),
          if_pos (sub_nonpos.mpr (not_lt.mp hnlt)), hrec]
        simp [List.filter_cons, hqp, hnlt, not_lt.mp hnlt]

/-- C7: RestoreBlocks on a fresh adapter with a supported system and
succeeding commands skips (and counts as skipped) exactly the non-permanent
records with no remaining duration at restore time (blockedUntil ≤ now),
issuing no command and installing no entry for them; every other record is
reinstalled — a permanent (Ban) entry for permanent records, a Timeout entry
expiring at the record's blockedUntil (remaining duration blockedUntil - now)
for timed records — with one OS block command each, and the restored and
skipped counts are reported. -/
theorem whoen_c7_restore (sys : String) (now : Time)
    (records : List BlockStatus)
    (hsys : supportedSystem (normalizeSystemType sys) = true)
    (hnd : (records.map BlockStatus.ip).Nodup) :
    Middleware.RestoreBlocks sys true now records =
      some ⟨(records.filter
              (fun q => decide (q.isPermanent = true ∨ now < q.blockedUntil))).length,
            (records.filter
              (fun q => decide (¬(q.isPermanent = true ∨ now < q.blockedUntil)))).length,
            (records.filter
              (fun q => decide (q.isPermanent = true ∨ now < q.blockedUntil))).map
                (fun q => (q.ip, if q.isPermanent then (0 : Time) else q.blockedUntil)),
            (records.filter
              (fun q => decide (q.isPermanent = true ∨ now < q.blockedUntil))).map
                (fun q => OSCmd.block q.ip)⟩ ∧
    (∀ q ∈ records, q.isPermanent = false → q.blockedUntil ≤ now →
      OSCmd.block q.ip ∉ (records.filter
        (fun q2 => decide (q2.isPermanent = true ∨ now < q2.blockedUntil))).map
          (fun q2 => OSCmd.block q2.ip) ∧
      alookup ((records.filter
        (fun q2 => decide (q2.isPermanent = true ∨ now < q2.blockedUntil))).map
          (fun q2 => (q2.ip, if q2.isPermanent then (0 : Time) else q2.blockedUntil)))
        q.ip = none) ∧
    (∀ q ∈ records, q.isPermanent = true →
      alookup ((records.filter
        (fun q2 => decide (q2.isPermanent = true ∨ now < q2.blockedUntil))).map
          (fun q2 => (q2.ip, if q2.isPermanent then (0 : Time) else q2.blockedUntil)))
        q.ip = some 0 ∧
      OSCmd.block q.ip ∈ (records.filter
        (fun q2 => decide (q2.isPermanent = true ∨ now < q2.blockedUntil))).map
          (fun q2 => OSCmd.block q2.ip)) ∧
    (∀ q ∈ records, q.isPermanent = false → now < q.blockedUntil →
      alookup ((records.filter
        (fun q2 => decide (q2.isPermanent = true ∨ now < q2.blockedUntil))).map
          (fun q2 => (q2.ip, if q2.isPermanent then (0 : Time) else q2.blockedUntil)))
        q.ip = some q.blockedUntil ∧
      OSCmd.block q.ip ∈ (records.filter
        (fun q2 => decide (q2.isPermanent = true ∨ now < q2.blockedUntil))).map
          (fun q2 => OSCmd.block q2.ip)) := by
  have hndf : ((records.filter
      (fun q2 => decide (q2.isPermanent = true ∨ now < q2.blockedUntil))).map
        BlockStatus.ip).Nodup :=
    ((List.filter_sublist records).map BlockStatus.ip).nodup hnd
  refine ⟨?_, ?_, ?_, ?_⟩
  · rw [Middleware.RestoreBlocks,
      restoreLoop_spec (normalizeSystemType sys) now records [] hsys hnd
        (fun q _ => rfl)]
    simp
  · intro q hq hperm hle
    have hnk : ¬(q.isPermanent = true ∨ now < q.blockedUntil) := by
      rintro (hc | hc)
      · rw [hperm] at hc; cases hc
      · exact absurd hc (not_lt.mpr hle)
    have hnotin : q.ip ∉ (records.filter
        (fun q2 => decide (q2.isPermanent = true ∨ now < q2.blockedUntil))).map
          BlockStatus.ip := by
      intro hmem
      rcases List.mem_map.mp hmem with ⟨q2, hq2f, hq2e⟩
      have hq2 := List.mem_filter.mp hq2f
      have hkeep2 : q2.isPermanent = true ∨ now < q2.blockedUntil :=
        of_decide_eq_true hq2.2
      have hq2q : q2 = q := List.inj_on_of_nodup_map hnd hq2.1 hq hq2e
      exact hnk (hq2q ▸ hkeep2)
    constructor
    · intro hmem
      rcases List.mem_map.mp hmem with ⟨q2, hq2f, hq2e⟩
      have hipq : q2.ip = q.ip := by injection hq2e
      exact hnotin (hipq ▸ List.mem_map_of_mem BlockStatus.ip hq2f)
    · exact alookup_map_entry_none _ _ _ hnotin
  · intro q hq hperm
    have hmemf : q ∈ records.filter
        (fun q2 => decide (q2.isPermanent = true ∨ now < q2.blockedUntil)) :=
      List.mem_filter.mpr ⟨hq, decide_eq_true (Or.inl hperm)⟩
    constructor
    · have := alookup_map_entry _
        (fun q2 => if q2.isPermanent then (0 : Time) else q2.blockedUntil)
        q hmemf hndf
      rw [this]
      simp [hperm]
    · exact List.mem_map_of_mem _ hmemf
  · intro q hq hperm htlt
    have hmemf : q ∈ records.filter
        (fun q2 => decide (q2.isPermanent = true ∨ now < q2.blockedUntil)) :=
      List.mem_filter.mpr ⟨hq, decide_eq_true (Or.inr htlt)⟩
    constructor
    · have := alookup_map_entry _
        (fun q2 => if q2.isPermanent then (0 : Time) else q2.blockedUntil)
        q hmemf hndf
      rw [this]
      simp [hperm]
    · exact List.mem_map_of_mem _ hmemf

/-- Witness for C7 on three concrete records: one expired timed block
(skipped), one timed block with remaining duration, one permanent block. -/
theorem whoen_c7_restore_witness :
    Middleware.RestoreBlocks "linux" true 100 c7recs =
      some ⟨(c7recs.filter
              (fun q => decide (q.isPermanent = true ∨ 100 < q.blockedUntil))).length,
            (c7recs.filter
              (fun q => decide (¬(q.isPermanent = true ∨ 100 < q.blockedUntil)))).length,
            (c7recs.filter
              (fun q => decide (q.isPermanent = true ∨ 100 < q.blockedUntil))).map
                (fun q => (q.ip, if q.isPermanent then (0 : Time) else q.blockedUntil)),
            (c7recs.filter
              (fun q => decide (q.isPermanent = true ∨ 100 < q.blockedUntil))).map
                (fun q => OSCmd.block q.ip)⟩ ∧
    (∀ q ∈ c7recs, q.isPermanent = false → q.blockedUntil ≤ 100 →
      OSCmd.block q.ip ∉ (c7recs.filter
        (fun q2 => decide (q2.isPermanent = true ∨ 100 < q2.blockedUntil))).map
          (fun q2 => OSCmd.block q2.ip) ∧
      alookup ((c7recs.filter
        (fun q2 => decide (q2.isPermanent = true ∨ 100 < q2.blockedUntil))).map
          (fun q2 => (q2.ip, if q2.isPermanent then (0 : Time) else q2.blockedUntil)))
        q.ip = none) ∧
    (∀ q ∈ c7recs, q.isPermanent = true →
      alookup ((c7recs.filter
        (fun q2 => decide (q2.isPermanent = true ∨ 100 < q2.blockedUntil))).map
          (fun q2 => (q2.ip, if q2.isPermanent then (0 : Time) else q2.blockedUntil)))
        q.ip = some 0 ∧
      OSCmd.block q.ip ∈ (c7recs.filter
        (fun q2 => decide (q2.isPermanent = true ∨ 100 < q2.blockedUntil))).map
          (fun q2 => OSCmd.block q2.ip)) ∧
    (∀ q ∈ c7recs, q.isPermanent = false → 100 < q.blockedUntil →
      alookup ((c7recs.filter
        (fun q2 => decide (q2.isPermanent = true ∨ 100 < q2.blockedUntil))).map
          (fun q2 => (q2.ip, if q2.isPermanent then (0 : Time) else q2.blockedUntil)))
        q.ip = some q.blockedUntil ∧
      OSCmd.block q.ip ∈ (c7recs.filter
        (fun q2 => decide (q2.isPermanent = true ∨ 100 < q2.blockedUntil))).map
          (fun q2 => OSCmd.block q2.ip)) :=
  whoen_c7_restore "linux" 100 c7recs (by rfl) (by decide)

end Whoen
